import Mathlib

/-!
Verification development for the rectifierr frontend orchestration layer.

The definitions below are a shallow embedding of the client components:

* `TrimEditor` — the interactive trim-session controller
  (frontend/src/components/Sidebar.tsx, `TrimEditor`, `Timeline`):
  the `clamp` helper, the drag handler `Timeline.move` composed with
  `handleTimelineChange`, the numeric-input helpers `setStartSafe` and
  `setEndSafe`, the double-confirmation handler `handleConfirm`, and the
  `isValid` submission gate.  Times are modelled as rationals; the
  JavaScript `Math.round(x * 10) / 10` becomes `⌊x * 10 + 1/2⌋ / 10`
  (JavaScript rounds half toward positive infinity).

* `ScanToast` — the job-lifecycle toast (components/ScanToast.tsx):
  the effect that reacts to the active-jobs feed is split into
  `tickUpdate` (the synchronous part of the effect body, returning the
  list of follow-up `getJob` fetches it issues) and `resolveFetch`
  (the continuation applied when the follow-up fetch settles).  The
  dismiss timer slot `dismissTimer.current` is modelled as a Bool
  (a timer is scheduled or not); `fireDismiss` is the timer callback,
  which only has an effect while the timer is still scheduled
  (`clearTimeout` semantics).

* `PlexConnect` — the connection flow (Settings page `PlexConnect`):
  phase enum, `stopPolling` / `startPolling` / `cancel`, the body of the
  2-second `setInterval` poll callback as `pollStep` (returning whether a
  `plexServers` fetch is issued), a sequential run of poll responses as
  `pollRun`, and the `startAuthMut` / `selectServerMut` mutations as
  `startAuthRun` / `selectServerRun` (each run issues exactly one
  request; the source configures no retry).

Display-only fields and cache invalidations are not modelled; every
modelled field and transition follows the source code.
-/

/-- Job status values used by the backend (pending, running, completed,
failed, cancelled). -/
inductive JobStatus
  | pending
  | running
  | completed
  | failed
  | cancelled
deriving DecidableEq, Repr

namespace TrimEditor

/-- Component state of `TrimEditor`: the `useState` hooks `start`, `end`,
`confirmed` and `jobId`.  The field `end` of the source is written `«end»`
because `end` is reserved in Lean. -/
structure EditorState where
  start : ℚ
  «end» : ℚ
  confirmed : Bool
  jobId : Option Nat
deriving DecidableEq, Repr

/-- Clamp a value between `lo` and `hi`, rounded to 1 decimal:
`Math.round(Math.max(min, Math.min(max, v)) * 10) / 10`. -/
def clamp (v lo hi : ℚ) : ℚ :=
  ((⌊(max lo (min hi v)) * 10 + 1 / 2⌋ : ℤ) : ℚ) / 10

/-- Numeric-input helper `setStartSafe`: sets `start` to
`clamp(v, 0, end - 0.5)`.  It does not touch `confirmed`. -/
def setStartSafe (st : EditorState) (v : ℚ) : EditorState :=
  { st with start := clamp v 0 (st.«end» - 1 / 2) }

/-- Numeric-input helper `setEndSafe`: sets `end` to
`clamp(v, start + 0.5, total)`.  It does not touch `confirmed`. -/
def setEndSafe (total : ℚ) (st : EditorState) (v : ℚ) : EditorState :=
  { st with «end» := clamp v (st.start + 1 / 2) total }

/-- Timeline `onChange` handler `handleTimelineChange`: stores the new
range and resets `confirmed` (the source resets only when `confirmed` is
set; the resulting value is `false` either way). -/
def handleTimelineChange (st : EditorState) (s e : ℚ) : EditorState :=
  { st with start := s, «end» := e, confirmed := false }

/-- Which handle is being dragged (`dragging.current` in `Timeline`). -/
inductive DragHandle
  | start
  | «end»
deriving DecidableEq, Repr

/-- The `move` function of `Timeline`: dragging the start handle to `t`
calls `onChange(clamp(t, 0, end - 0.5), end)`; dragging the end handle
calls `onChange(start, clamp(t, start + 0.5, total))`.  `onChange` is
`handleTimelineChange`, which resets the confirmation. -/
def move (total : ℚ) (dragging : DragHandle) (st : EditorState) (t : ℚ) : EditorState :=
  match dragging with
  | .start => handleTimelineChange st (clamp t 0 (st.«end» - 1 / 2)) st.«end»
  | .«end» => handleTimelineChange st st.start (clamp t (st.start + 1 / 2) total)

/-- The confirm-button handler `handleConfirm`.  The Bool records whether
a submission request (`submitMut.mutate()`) is issued by this
activation: the first activation only arms the gate. -/
def handleConfirm (st : EditorState) : EditorState × Bool :=
  if st.confirmed then (st, true) else ({ st with confirmed := true }, false)

/-- Validation gating submission:
`start >= 0 && end <= total + 0.1 && removeDuration >= 0.5`
with `removeDuration = end - start`. -/
def isValid (total : ℚ) (st : EditorState) : Bool :=
  decide (0 ≤ st.start) && decide (st.«end» ≤ total + 1 / 10) &&
    decide (1 / 2 ≤ st.«end» - st.start)

/-- The `disabled` prop of the confirm button:
`!isValid || submitMut.isPending`. -/
def confirmDisabled (total : ℚ) (st : EditorState) (pending : Bool) : Bool :=
  !(isValid total st) || pending

/-- One user mutation of the range: dragging a handle to a target
position, or entering a number in the start or end input. -/
inductive Mut
  | dragStart (t : ℚ)
  | dragEnd (t : ℚ)
  | inputStart (v : ℚ)
  | inputEnd (v : ℚ)
deriving DecidableEq, Repr

/-- Apply one range mutation, following the corresponding source path. -/
def applyMut (total : ℚ) (st : EditorState) : Mut → EditorState
  | .dragStart t => move total .start st t
  | .dragEnd t => move total .«end» st t
  | .inputStart v => setStartSafe st v
  | .inputEnd v => setEndSafe total st v

/-- States reachable by a sequence of range mutations. -/
def reach (total : ℚ) (st : EditorState) (ms : List Mut) : EditorState :=
  ms.foldl (applyMut total) st

/-- The trim-range invariant of the spec:
`0 ≤ start`, `end ≤ duration` and `end - start ≥ 0.5`. -/
def trimInv (duration : ℚ) (st : EditorState) : Prop :=
  0 ≤ st.start ∧ st.«end» ≤ duration ∧ 1 / 2 ≤ st.«end» - st.start

/-- A rational lies on the 0.1-second grid: it is an integer multiple of
one tenth. -/
def aligned10 (x : ℚ) : Prop :=
  ∃ k : ℤ, x = (k : ℚ) / 10

end TrimEditor

namespace ScanToast

/-- A scan job as delivered by the active-jobs feed and by `getJob`. -/
structure ScanJob where
  id : Nat
  status : JobStatus
  processed_files : Nat
  total_files : Nat
  issues_found : Nat
  error_message : Option String
deriving DecidableEq, Repr

/-- The four display phases of the toast. -/
inductive ToastPhase
  | hidden
  | running
  | completed
  | failed
deriving DecidableEq, Repr

/-- Component state of `ScanToast`: `phase` and `snap` are `useState`
hooks, `dismissTimer` models whether the `dismissTimer.current` slot
holds a scheduled timeout, `wasRunning` is the `wasRunning` ref. -/
structure ToastState where
  phase : ToastPhase
  snap : Option ScanJob
  dismissTimer : Bool
  wasRunning : Bool
deriving DecidableEq, Repr

/-- Initial component state: phase `hidden`, no snapshot, no timer,
`wasRunning = false`. -/
def initState : ToastState :=
  ⟨.hidden, none, false, false⟩

/-- The synchronous body of the effect that watches the active-jobs
feed.  Returns the updated state together with the ids for which a
follow-up `getJob` fetch is issued:

* feed still undefined — nothing happens;
* non-empty feed — cancel any dismiss timer, snapshot the first active
  job, phase `running`, remember `wasRunning`; no fetch;
* empty feed — only when the previous tick had an active job
  (`wasRunning` and a snapshot exist) clear `wasRunning` and fetch the
  full record of the last-seen job. -/
def tickUpdate (st : ToastState) (activeJobs : Option (List ScanJob)) :
    ToastState × List Nat :=
  match activeJobs with
  | none => (st, [])
  | some (job :: _) =>
    ({ st with dismissTimer := false, snap := some job,
               phase := .running, wasRunning := true }, [])
  | some [] =>
    if st.wasRunning then
      match st.snap with
      | some j => ({ st with wasRunning := false }, [j.id])
      | none => (st, [])
    else (st, [])

/-- The continuation applied when the follow-up `getJob` fetch settles:
on success store the final snapshot and map its status to a phase
(`completed` schedules the dismiss timeout, `failed` shows the error
phase, anything else hides the toast); on rejection the catch handler
just hides the toast. -/
def resolveFetch (st : ToastState) (r : Except Unit ScanJob) : ToastState :=
  match r with
  | .ok finalJob =>
    match finalJob.status with
    | .completed => { st with snap := some finalJob, phase := .completed,
                              dismissTimer := true }
    | .failed => { st with snap := some finalJob, phase := .failed }
    | _ => { st with snap := some finalJob, phase := .hidden }
  | .error _ => { st with phase := .hidden }

/-- The dismiss-timeout callback.  A cancelled timeout never fires, so
the callback only has an effect while the timer is still scheduled; a
fired timer cannot fire again. -/
def fireDismiss (st : ToastState) : ToastState :=
  if st.dismissTimer then { st with phase := .hidden, dismissTimer := false } else st

/-- Delay of the auto-dismiss timeout (`setTimeout(..., 5000)`). -/
def dismissDelayMs : Nat := 5000

/-- A running scan job as it appears in the active-jobs feed. -/
def jobRunning : ScanJob :=
  ⟨1, .running, 5, 10, 2, none⟩

/-- The full record of job 1 fetched after it left the active queue. -/
def jobCompleted : ScanJob :=
  ⟨1, .completed, 10, 10, 3, none⟩

end ScanToast

namespace PlexConnect

/-- Phases of the connection flow (the `Phase` union type of the
source). -/
inductive Phase
  | loading
  | idle
  | starting
  | awaiting_auth
  | picking_server
  | connecting
  | picking_libraries
  | connected
deriving DecidableEq, Repr

/-- One advertised connection of a Plex server (only the `local` flag is
read by the component). -/
structure PlexConnection where
  «local» : Bool
deriving DecidableEq, Repr

/-- A candidate Plex server as returned by the server-list fetch. -/
structure PlexServer where
  name : String
  machine_id : String
  best_url : String
  owned : Bool
  connections : List PlexConnection
deriving DecidableEq, Repr

/-- Component state of `PlexConnect`: the `useState` hooks plus
`polling`, which models whether `pollRef.current` holds a live
interval. -/
structure FlowState where
  phase : Phase
  pinCode : String
  authUrl : String
  servers : List PlexServer
  error : Option String
  polling : Bool
deriving DecidableEq, Repr

/-- Interval of the authorization poll (`setInterval(..., 2000)`). -/
def pollIntervalMs : Nat := 2000

/-- Clear the poll interval (`clearInterval` + null the ref). -/
def stopPolling (st : FlowState) : FlowState :=
  { st with polling := false }

/-- Install the poll interval (the source first calls `stopPolling`,
then stores a fresh interval handle). -/
def startPolling (st : FlowState) : FlowState :=
  { st with polling := true }

/-- The cancel handler: stop polling, reset the phase to `idle`, clear
the PIN code and the error banner. -/
def cancel (st : FlowState) : FlowState :=
  { stopPolling st with phase := .idle, pinCode := "", error := none }

/-- The body of the poll callback, applied when a `plexAuthPoll`
response arrives.  On `authenticated` it stops the poll, advances the
phase to `picking_server` and issues the `plexServers` fetch (the
returned Bool); otherwise nothing changes.  The source applies this
continuation unconditionally — it does not re-check that the flow is
still attached. -/
def pollStep (st : FlowState) (authenticated : Bool) : FlowState × Bool :=
  if authenticated then ({ stopPolling st with phase := .picking_server }, true)
  else (st, false)

/-- Store the fetched server list (`setServers`). -/
def resolveServers (st : FlowState) (srvList : List PlexServer) : FlowState :=
  { st with servers := srvList }

/-- A sequential run of the poll: each interval tick fires only while
the interval is installed, and its response is processed by `pollStep`.
Returns the final state and how many `plexServers` fetches were
issued. -/
def pollRun (st : FlowState) (responses : List Bool) : FlowState × Nat :=
  responses.foldl
    (fun acc a =>
      if acc.1.polling then
        ((pollStep acc.1 a).1, acc.2 + (if (pollStep acc.1 a).2 then 1 else 0))
      else acc)
    (st, 0)

/-- Payload of a successful `plexAuthStart` request. -/
structure StartAuthData where
  pin_id : Nat
  pin_code : String
  auth_url : String
deriving DecidableEq, Repr

/-- One run of the `startAuthMut` mutation: `onMutate` sets phase
`starting` and clears the error, then the single request settles —
`onSuccess` stores the PIN data, enters `awaiting_auth` and starts the
poll; `onError` surfaces the message and reverts to `idle`.  The Nat is
the number of requests issued by the run (always one: the source
configures no retry). -/
def startAuthRun (st : FlowState) (result : Except String StartAuthData) :
    FlowState × Nat :=
  let st1 := { st with phase := Phase.starting, error := none }
  match result with
  | .ok d =>
    (startPolling { st1 with pinCode := d.pin_code, authUrl := d.auth_url,
                             phase := .awaiting_auth }, 1)
  | .error msg => ({ st1 with error := some msg, phase := .idle }, 1)

/-- One run of the `selectServerMut` mutation: `onMutate` sets phase
`connecting` and clears the error; `onSuccess` advances to
`picking_libraries`; `onError` surfaces the message and reverts to
`picking_server`.  The Nat counts issued requests (always one). -/
def selectServerRun (st : FlowState) (result : Except String Unit) :
    FlowState × Nat :=
  let st1 := { st with phase := Phase.connecting, error := none }
  match result with
  | .ok _ => ({ st1 with phase := .picking_libraries }, 1)
  | .error msg => ({ st1 with error := some msg, phase := .picking_server }, 1)

/-- A concrete state in `awaiting_auth` with the poll installed, as
reached right after a successful `plexAuthStart`. -/
def awaitingExample : FlowState :=
  ⟨.awaiting_auth, "ABCD", "https://plex.tv/link", [], none, true⟩

end PlexConnect

namespace TrimEditor

/-- C3: dragging the start handle to target `t` sets the new start to
`clamp(t, 0, end - 0.5)` and leaves the end unchanged; dragging the end
handle to `t` sets the new end to `clamp(t, start + 0.5, duration)` and
leaves the start unchanged.  In particular, with duration 120, start 10
and end 15, dragging the end handle to 9.7 yields end 10.5, and then
dragging the start handle to 11 while end is 10.5 yields start 10.0. -/
theorem drag_clamping :
    (∀ (total : ℚ) (st : EditorState) (t : ℚ),
      (move total .start st t).start = clamp t 0 (st.«end» - 1 / 2) ∧
      (move total .start st t).«end» = st.«end» ∧
      (move total .«end» st t).«end» = clamp t (st.start + 1 / 2) total ∧
      (move total .«end» st t).start = st.start) ∧
    (move 120 .«end» ⟨10, 15, false, none⟩ (97 / 10)).«end» = 21 / 2 ∧
    (move 120 .«end» ⟨10, 15, false, none⟩ (97 / 10)).start = 10 ∧
    (move 120 .start ⟨10, 21 / 2, false, none⟩ 11).start = 10 ∧
    (move 120 .start ⟨10, 21 / 2, false, none⟩ 11).«end» = 21 / 2 := by
  refine ⟨fun total st t => ⟨rfl, rfl, rfl, rfl⟩, ?_, rfl, ?_, rfl⟩ <;>
    norm_num [move, handleTimelineChange, clamp, max_def, min_def]

/-- C10: the trim submit control is enabled exactly when
`start ≥ 0 ∧ end ≤ duration + 0.1 ∧ end - start ≥ 0.5` and no submission
is pending; in particular the validity check tolerates the end exceeding
the duration by up to 0.1 seconds (with duration 120 an end of 120.1 is
still accepted). -/
theorem submit_enabled_iff :
    (∀ (total : ℚ) (st : EditorState) (pending : Bool),
      (!confirmDisabled total st pending) = true ↔
        (0 ≤ st.start ∧ st.«end» ≤ total + 1 / 10 ∧
          1 / 2 ≤ st.«end» - st.start ∧ pending = false)) ∧
    isValid 120 ⟨0, 1201 / 10, false, none⟩ = true ∧
    ¬ ((1201 / 10 : ℚ) ≤ 120) := by
  refine ⟨fun total st pending => ?_, by norm_num [isValid], by norm_num⟩
  simp [confirmDisabled, isValid, and_assoc]

/-- C1 (code behavior at the failing input): from a valid range the
first activation of `handleConfirm` arms the gate and issues no request,
a second activation issues exactly one submission request, and a drag
adjustment resets `confirmed`; but a direct numeric-input adjustment
(`setStartSafe`) changes the range while leaving `confirmed = true`,
contradicting the claim that any adjustment resets the gate. -/
theorem confirm_gate_numeric_no_reset :
    handleConfirm ⟨10, 15, false, none⟩ = (⟨10, 15, true, none⟩, false) ∧
    handleConfirm ⟨10, 15, true, none⟩ = (⟨10, 15, true, none⟩, true) ∧
    (move 120 .start ⟨10, 15, true, none⟩ 11).confirmed = false ∧
    (setStartSafe ⟨10, 15, true, none⟩ 11).start = 11 ∧
    (setStartSafe ⟨10, 15, true, none⟩ 11).confirmed = true := by
  refine ⟨rfl, rfl, rfl, ?_, rfl⟩
  norm_num [setStartSafe, clamp, max_def, min_def]

end TrimEditor

namespace ScanToast

/-- C4: when the active-jobs feed transitions from non-empty to empty,
the toast issues exactly one follow-up fetch of the last-seen job, and
the resolved status maps to phase `completed`, `failed`, or `hidden`
for any other status; no follow-up fetch is issued on any other feed
update (undefined feed, non-empty feed, empty feed without a previous
active tick), and a second empty tick does not fetch again. -/
theorem terminal_transition_fetch :
    (∀ (st : ToastState) (j : ScanJob) (rest : List ScanJob),
      (tickUpdate st (some (j :: rest))).2 = [] ∧
      (tickUpdate (tickUpdate st (some (j :: rest))).1 (some [])).2 = [j.id] ∧
      (tickUpdate (tickUpdate (tickUpdate st (some (j :: rest))).1 (some [])).1
        (some [])).2 = []) ∧
    (∀ st : ToastState,
      tickUpdate st none = (st, []) ∧
      (tickUpdate { st with wasRunning := false } (some [])).2 = [] ∧
      (tickUpdate { st with snap := none } (some [])).2 = []) ∧
    (∀ (st : ToastState) (finalJob : ScanJob),
      (resolveFetch st (Except.ok finalJob)).phase =
        match finalJob.status with
        | JobStatus.completed => ToastPhase.completed
        | JobStatus.failed => ToastPhase.failed
        | _ => ToastPhase.hidden) := by
  refine ⟨fun st j rest => ⟨rfl, rfl, rfl⟩, fun st => ⟨rfl, ?_, ?_⟩,
    fun st finalJob => ?_⟩
  · simp [tickUpdate]
  · cases h : st.wasRunning <;> simp [tickUpdate, h]
  · cases h : finalJob.status <;> simp [resolveFetch, h]

/-- C9: if the follow-up fetch of the full job record rejects, the
toast phase is set to `hidden` with the snapshot untouched — no error
state is shown for a fetch failure; the `failed` phase arises exactly
when the fetched status is `failed`. -/
theorem fetch_failure_hides :
    ∀ st : ToastState,
      (resolveFetch st (Except.error ())).phase = ToastPhase.hidden ∧
      (resolveFetch st (Except.error ())).snap = st.snap ∧
      ∀ finalJob : ScanJob,
        ((resolveFetch st (Except.ok finalJob)).phase = ToastPhase.failed ↔
          finalJob.status = JobStatus.failed) := by
  intro st
  refine ⟨rfl, rfl, fun finalJob => ?_⟩
  cases h : finalJob.status <;> simp [resolveFetch, h]

/-- C7: resolving the follow-up fetch with a completed job schedules the
5000 ms dismiss timer and enters phase `completed`; firing that timer
hides the toast (and the timer cannot fire twice); a non-empty
active-jobs update cancels the scheduled timer and returns the phase to
`running`, so a stale dismiss timer can never hide the toast while a job
is active. -/
theorem completed_dismiss_timer (st st2 : ToastState) (finalJob j : ScanJob)
    (rest : List ScanJob) (hc : finalJob.status = JobStatus.completed) :
    dismissDelayMs = 5000 ∧
    (resolveFetch st (Except.ok finalJob)).dismissTimer = true ∧
    (resolveFetch st (Except.ok finalJob)).phase = ToastPhase.completed ∧
    (fireDismiss (resolveFetch st (Except.ok finalJob))).phase = ToastPhase.hidden ∧
    (fireDismiss (resolveFetch st (Except.ok finalJob))).dismissTimer = false ∧
    (tickUpdate st2 (some (j :: rest))).1.dismissTimer = false ∧
    (tickUpdate st2 (some (j :: rest))).1.phase = ToastPhase.running ∧
    fireDismiss (tickUpdate st2 (some (j :: rest))).1 =
      (tickUpdate st2 (some (j :: rest))).1 := by
  refine ⟨rfl, ?_, ?_, ?_, ?_, rfl, rfl, ?_⟩ <;>
    simp [resolveFetch, fireDismiss, tickUpdate, hc]

/-- C7 witness: the scenario with job 1 running and then fetched as
completed, at the initial component state. -/
theorem completed_dismiss_timer_witness :
    jobCompleted.status = JobStatus.completed ∧
    (dismissDelayMs = 5000 ∧
     (resolveFetch initState (Except.ok jobCompleted)).dismissTimer = true ∧
     (resolveFetch initState (Except.ok jobCompleted)).phase = ToastPhase.completed ∧
     (fireDismiss (resolveFetch initState (Except.ok jobCompleted))).phase =
       ToastPhase.hidden ∧
     (fireDismiss (resolveFetch initState (Except.ok jobCompleted))).dismissTimer =
       false ∧
     (tickUpdate initState (some (jobRunning :: []))).1.dismissTimer = false ∧
     (tickUpdate initState (some (jobRunning :: []))).1.phase = ToastPhase.running ∧
     fireDismiss (tickUpdate initState (some (jobRunning :: []))).1 =
       (tickUpdate initState (some (jobRunning :: []))).1) :=
  ⟨rfl, completed_dismiss_timer initState initState jobCompleted jobRunning [] rfl⟩

end ScanToast

namespace PlexConnect

/-- C8: a failed `startAuth` request reverts the phase to `idle` with
the error message surfaced, a failed `selectServer` request reverts the
phase to `picking_server` with the error message surfaced, and in both
cases the run issues exactly one request (no automatic retry). -/
theorem submission_error_reverts :
    ∀ (st : FlowState) (msg : String),
      (startAuthRun st (Except.error msg)).1.phase = Phase.idle ∧
      (startAuthRun st (Except.error msg)).1.error = some msg ∧
      (startAuthRun st (Except.error msg)).2 = 1 ∧
      (selectServerRun st (Except.error msg)).1.phase = Phase.picking_server ∧
      (selectServerRun st (Except.error msg)).1.error = some msg ∧
      (selectServerRun st (Except.error msg)).2 = 1 :=
  fun _ _ => ⟨rfl, rfl, rfl, rfl, rfl, rfl⟩

/-- C5 (code behavior at the failing input): cancelling during
`awaiting_auth` does reset the phase to `idle` and stop the interval (so
no further poll requests are issued), but a poll response already in
flight at cancel time is not discarded: when it reports authenticated,
the stale continuation still moves the phase to `picking_server` and
issues the server-list fetch. -/
theorem cancel_inflight_poll_mutates_flow :
    (cancel awaitingExample).phase = Phase.idle ∧
    (cancel awaitingExample).polling = false ∧
    (pollStep (cancel awaitingExample) true).1.phase = Phase.picking_server ∧
    (pollStep (cancel awaitingExample) true).2 = true :=
  ⟨rfl, rfl, rfl, rfl⟩

/-- Helper: a non-authenticated poll response leaves the poll run where
it was. -/
theorem pollRun_false_cons (st : FlowState) (l : List Bool) :
    pollRun st (false :: l) = pollRun st l := by
  simp only [pollRun, List.foldl_cons]
  congr 1
  cases hp : st.polling <;> simp [pollStep, hp]

/-- C6: in `awaiting_auth` the flow polls the authorization check at a
fixed 2000 ms interval; in a run with any number of non-authenticated
responses followed by an authenticated one, the poll is stopped, the
server list is fetched exactly once, and the phase advances to
`picking_server`. -/
theorem auth_poll_success (st : FlowState) (n : Nat)
    (hpoll : st.polling = true) (_hphase : st.phase = Phase.awaiting_auth) :
    pollIntervalMs = 2000 ∧
    (pollRun st (List.replicate n false ++ [true])).1.phase = Phase.picking_server ∧
    (pollRun st (List.replicate n false ++ [true])).1.polling = false ∧
    (pollRun st (List.replicate n false ++ [true])).2 = 1 := by
  have key : pollRun st (List.replicate n false ++ [true]) =
      ({ stopPolling st with phase := Phase.picking_server }, 1) := by
    induction n with
    | zero => simp [pollRun, pollStep, hpoll]
    | succ k ih =>
      rw [List.replicate_succ, List.cons_append, pollRun_false_cons]
      exact ih
  rw [key]
  exact ⟨rfl, rfl, rfl, rfl⟩

/-- C6 witness: the spec scenario — two poll ticks answer
not-authenticated, the third answers authenticated. -/
theorem auth_poll_success_witness :
    awaitingExample.polling = true ∧
    awaitingExample.phase = Phase.awaiting_auth ∧
    (pollIntervalMs = 2000 ∧
     (pollRun awaitingExample (List.replicate 2 false ++ [true])).1.phase =
       Phase.picking_server ∧
     (pollRun awaitingExample (List.replicate 2 false ++ [true])).1.polling = false ∧
     (pollRun awaitingExample (List.replicate 2 false ++ [true])).2 = 1) :=
  ⟨rfl, rfl, auth_poll_success awaitingExample 2 rfl rfl⟩

end PlexConnect

namespace TrimEditor

/-- Helper: when the clamp bounds lie on the 0.1 grid and are ordered,
the clamped-and-rounded value stays between them and on the grid. -/
theorem clamp_bounds (v lo hi : ℚ) (h : lo ≤ hi)
    (hlo : aligned10 lo) (hhi : aligned10 hi) :
    lo ≤ clamp v lo hi ∧ clamp v lo hi ≤ hi ∧ aligned10 (clamp v lo hi) := by
  obtain ⟨k, rfl⟩ := hlo
  obtain ⟨m, rfl⟩ := hhi
  have hc1 : (k : ℚ) / 10 ≤ max ((k : ℚ) / 10) (min ((m : ℚ) / 10) v) :=
    le_max_left _ _
  have hc2 : max ((k : ℚ) / 10) (min ((m : ℚ) / 10) v) ≤ (m : ℚ) / 10 :=
    max_le h (min_le_left _ _)
  set c := max ((k : ℚ) / 10) (min ((m : ℚ) / 10) v) with hcdef
  have hkf : k ≤ ⌊c * 10 + 1 / 2⌋ := by
    apply Int.le_floor.mpr
    linarith
  have hmf : ⌊c * 10 + 1 / 2⌋ ≤ m := by
    have h2 : ⌊c * 10 + 1 / 2⌋ < m + 1 := by
      apply Int.floor_lt.mpr
      push_cast
      linarith
    omega
  have hkfQ : (k : ℚ) ≤ ((⌊c * 10 + 1 / 2⌋ : ℤ) : ℚ) := by exact_mod_cast hkf
  have hmfQ : ((⌊c * 10 + 1 / 2⌋ : ℤ) : ℚ) ≤ (m : ℚ) := by exact_mod_cast hmf
  refine ⟨?_, ?_, ⟨⌊c * 10 + 1 / 2⌋, ?_⟩⟩
  · unfold clamp
    rw [← hcdef]
    linarith
  · unfold clamp
    rw [← hcdef]
    linarith
  · unfold clamp
    rw [← hcdef]

/-- Helper: every single range mutation preserves the trim invariant and
grid alignment, provided the duration is grid-aligned. -/
theorem applyMut_preserves (D : ℚ) (hD : aligned10 D) (st : EditorState)
    (h : trimInv D st) (ha : aligned10 st.start) (hb : aligned10 st.«end»)
    (m : Mut) :
    trimInv D (applyMut D st m) ∧ aligned10 (applyMut D st m).start ∧
      aligned10 (applyMut D st m).«end» := by
  obtain ⟨h0, hDle, hgap⟩ := h
  have hzero : aligned10 (0 : ℚ) := ⟨0, by norm_num⟩
  have hsub : aligned10 (st.«end» - 1 / 2) := by
    obtain ⟨k, hk⟩ := hb
    exact ⟨k - 5, by push_cast [hk]; ring⟩
  have hadd : aligned10 (st.start + 1 / 2) := by
    obtain ⟨k, hk⟩ := ha
    exact ⟨k + 5, by push_cast [hk]; ring⟩
  cases m with
  | dragStart t =>
    obtain ⟨hc1, hc2, hc3⟩ := clamp_bounds t 0 (st.«end» - 1 / 2) (by linarith) hzero hsub
    have hgoal : 1 / 2 ≤ st.«end» - clamp t 0 (st.«end» - 1 / 2) := by linarith
    exact ⟨⟨hc1, hDle, hgoal⟩, hc3, hb⟩
  | dragEnd t =>
    obtain ⟨hc1, hc2, hc3⟩ := clamp_bounds t (st.start + 1 / 2) D (by linarith) hadd hD
    have hgoal : 1 / 2 ≤ clamp t (st.start + 1 / 2) D - st.start := by linarith
    exact ⟨⟨h0, hc2, hgoal⟩, ha, hc3⟩
  | inputStart v =>
    obtain ⟨hc1, hc2, hc3⟩ := clamp_bounds v 0 (st.«end» - 1 / 2) (by linarith) hzero hsub
    have hgoal : 1 / 2 ≤ st.«end» - clamp v 0 (st.«end» - 1 / 2) := by linarith
    exact ⟨⟨hc1, hDle, hgoal⟩, hc3, hb⟩
  | inputEnd v =>
    obtain ⟨hc1, hc2, hc3⟩ := clamp_bounds v (st.start + 1 / 2) D (by linarith) hadd hD
    have hgoal : 1 / 2 ≤ clamp v (st.start + 1 / 2) D - st.start := by linarith
    exact ⟨⟨h0, hc2, hgoal⟩, ha, hc3⟩

/-- Helper: the invariant and grid alignment propagate along any
mutation sequence. -/
theorem reach_preserves (D : ℚ) (hD : aligned10 D) (ms : List Mut) :
    ∀ st : EditorState, trimInv D st → aligned10 st.start → aligned10 st.«end» →
      trimInv D (reach D st ms) ∧ aligned10 (reach D st ms).start ∧
        aligned10 (reach D st ms).«end» := by
  induction ms with
  | nil => exact fun st h ha hb => ⟨h, ha, hb⟩
  | cons m ms ih =>
    intro st h ha hb
    have h1 := applyMut_preserves D hD st h ha hb m
    exact ih (applyMut D st m) h1.1 h1.2.1 h1.2.2

/-- C2 counterexample: the claim fails as stated.  The initial range
start 9, end 9.58 with duration 120 is valid (gap 0.58 ≥ 0.5), yet a
single numeric input of 9.58 for the start rounds the clamped value
9.08 up to 9.1, leaving a gap of only 0.48 < 0.5. -/
theorem trim_invariant_counterexample :
    trimInv 120 (⟨9, 479 / 50, false, none⟩ : EditorState) ∧
    ¬ trimInv 120 (reach 120 ⟨9, 479 / 50, false, none⟩ [Mut.inputStart (479 / 50)]) := by
  constructor
  · norm_num [trimInv]
  · norm_num [trimInv, reach, applyMut, setStartSafe, clamp, max_def, min_def]

/-- C2 (amended): if the duration and the initial start and end are
integer multiples of 0.1 and the initial range is valid, then every
state reachable by drag and numeric-input mutations satisfies
`0 ≤ start`, `end ≤ duration` and `end - start ≥ 0.5`. -/
theorem trim_invariant_on_grid (D : ℚ) (s0 : EditorState) (ms : List Mut)
    (hD : aligned10 D) (h0 : trimInv D s0)
    (ha : aligned10 s0.start) (hb : aligned10 s0.«end») :
    trimInv D (reach D s0 ms) :=
  (reach_preserves D hD ms s0 h0 ha hb).1

/-- C2 witness: duration 120, initial range 10–15, a drag of the end
handle to 9.7 followed by a drag of the start handle to 11. -/
theorem trim_invariant_on_grid_witness :
    aligned10 (120 : ℚ) ∧
    trimInv 120 (⟨10, 15, false, none⟩ : EditorState) ∧
    aligned10 ((⟨10, 15, false, none⟩ : EditorState)).start ∧
    aligned10 ((⟨10, 15, false, none⟩ : EditorState)).«end» ∧
    trimInv 120
      (reach 120 ⟨10, 15, false, none⟩ [Mut.dragEnd (97 / 10), Mut.dragStart 11]) :=
  ⟨⟨1200, by norm_num⟩, by norm_num [trimInv], ⟨100, by norm_num⟩, ⟨150, by norm_num⟩,
    trim_invariant_on_grid 120 ⟨10, 15, false, none⟩
      [Mut.dragEnd (97 / 10), Mut.dragStart 11]
      ⟨1200, by norm_num⟩ (by norm_num [trimInv]) ⟨100, by norm_num⟩ ⟨150, by norm_num⟩⟩

end TrimEditor
